import Mathlib

/-!
Shallow embedding of the repository's value-marshaling / connection layer.

Part 1 embeds `src/utils/utils.go` (`CheckRegEx`, `RemovePassword`): Go
strings become `List Char`, `strings.SplitN(s, sep, 2)` becomes `breakFirst`,
and a Go runtime panic (index out of range) becomes `Option.none`.

Part 2 models the driver pieces whose code is not in the repository's files
(only their tests are): `ParseDSN`, `isBadConnection` and the numeric
coercion rules, each definition marked `Modelled from the spec:`.
-/

namespace GoDriver

/-- Splits a list at the first occurrence of `sep`: `some (before, after)`
with `sep` itself dropped, or `none` when `sep` does not occur.  This is the
list-level meaning of Go `strings.SplitN(s, sep, 2)`: Go returns `[before,
after]` when `sep` occurs and the one-element slice `[s]` otherwise. -/
def breakFirst (sep : Char) : List Char → Option (List Char × List Char)
  | [] => none
  | c :: cs =>
    if c = sep then some ([], cs)
    else (breakFirst sep cs).map (fun p => (c :: p.1, p.2))

/-- Embedding of `RemovePassword` (src/utils/utils.go lines 43-81).

The source splits `checkString` with `strings.SplitN(checkString, "/", 2)`
and unconditionally reads `upTokens[1]`; when the input has no `/`, `SplitN`
returns a one-element slice and that read panics with an index-out-of-range
runtime error, so the function produces no value: that path is `none` here.
(The `CheckRegEx(checkString, ".+/[^@]+")` call at line 50 only drives a log
warning and does not affect the result, so it is dropped.)

Otherwise `userName` is the text before the first `/` and `passWord` the text
after it.  When `strings.Index(passWord, "@") != -1` the source splits
`passWord` with `strings.SplitN(passWord, "@", 2)` - at its FIRST `@` - and
returns `strings.Join([userName, tnsAlias], "@")`; else it returns
`userName`. -/
def RemovePassword (checkString : List Char) : Option (List Char) :=
  match breakFirst '/' checkString with
  | none => none
  | some (userName, passWord) =>
    match breakFirst '@' passWord with
    | none => some userName
    | some (_, tnsAlias) => some (userName ++ '@' :: tnsAlias)

/-- A character-class atom of the modelled RE2 subset: one character or an
inclusive range. -/
inductive ClassItem where
  | single (c : Char)
  | range (lo hi : Char)
deriving DecidableEq

/-- Does a class atom accept the character `a`? -/
def ClassItem.accepts : ClassItem → Char → Bool
  | .single c, a => a = c
  | .range lo hi, a => lo ≤ a && a ≤ hi

/-- Abstract syntax of the modelled subset of RE2 (the syntax of Go's
`regexp` package, an external collaborator of `CheckRegEx`): literal and
escaped characters, the any-character dot, character classes (optionally
negated, with ranges), grouping, concatenation, alternation and the
repetition operators.  `fail` accepts nothing; it arises from derivatives. -/
inductive Regex where
  | fail
  | emptyStr
  | chr (c : Char)
  | anyChar
  | cls (negated : Bool) (items : List ClassItem)
  | cat (r1 r2 : Regex)
  | alt (r1 r2 : Regex)
  | star (r : Regex)
deriving DecidableEq

/-- Does the regex accept the empty word? -/
def Regex.nullable : Regex → Bool
  | .fail => false
  | .emptyStr => true
  | .chr _ => false
  | .anyChar => false
  | .cls _ _ => false
  | .cat r1 r2 => r1.nullable && r2.nullable
  | .alt r1 r2 => r1.nullable || r2.nullable
  | .star _ => true

/-- Does a (possibly negated) character class accept `a`? -/
def classAccepts (negated : Bool) (items : List ClassItem) (a : Char) : Bool :=
  if negated then !(items.any fun i => i.accepts a) else items.any fun i => i.accepts a

/-- Brzozowski derivative: `r.deriv a` accepts `w` exactly when `r` accepts
`a :: w`.  As in RE2's default mode, `.` refuses a newline while a negated
class does not. -/
def Regex.deriv : Regex → Char → Regex
  | .fail, _ => .fail
  | .emptyStr, _ => .fail
  | .chr c, a => if a = c then .emptyStr else .fail
  | .anyChar, a => if a = '\n' then .fail else .emptyStr
  | .cls negated items, a => if classAccepts negated items a then .emptyStr else .fail
  | .cat r1 r2, a =>
    if r1.nullable then .alt (.cat (r1.deriv a) r2) (r2.deriv a) else .cat (r1.deriv a) r2
  | .alt r1 r2, a => .alt (r1.deriv a) (r2.deriv a)
  | .star r, a => .cat (r.deriv a) (.star r)

/-- Does some (possibly empty) leading segment of `s` belong to the
language of `r`? -/
def Regex.matchPre : Regex → List Char → Bool
  | r, [] => r.nullable
  | r, a :: as => r.nullable || (r.deriv a).matchPre as

/-- Unanchored search, the boolean Go's `regexp.MatchString` reports: does
the pattern match starting at some position of `s`? -/
def Regex.search (r : Regex) : List Char → Bool
  | [] => r.nullable
  | a :: as => r.matchPre (a :: as) || r.search as

/-- One postfix repetition operator applied to `r`. -/
def applyRep (r : Regex) : Char → Regex
  | '*' => .star r
  | '+' => .cat r (.star r)
  | _ => .alt r .emptyStr

/-- Parses the body of a character class after the optional `^`, consuming
the closing `]`.  RE2 has no POSIX special case for a leading `]`, so an
immediately closing `]` leaves the class unfinished. -/
def parseClassItems : List Char → List ClassItem →
    Except String (List ClassItem × List Char)
  | [], _ => .error ("missing closing ]")
  | ']' :: rest, acc =>
    if acc.isEmpty then .error ("missing closing ]") else .ok (acc.reverse, rest)
  | '\\' :: [], _ => .error ("trailing backslash at end of expression")
  | '\\' :: e :: rest, acc => parseClassItems rest (.single e :: acc)
  | a :: '-' :: ']' :: rest, acc =>
    .ok ((ClassItem.single '-' :: ClassItem.single a :: acc).reverse, rest)
  | a :: '-' :: b :: rest, acc =>
    if a ≤ b then parseClassItems rest (.range a b :: acc)
    else .error ("invalid character class range")
  | a :: rest, acc => parseClassItems rest (.single a :: acc)

mutual

/-- Parses an alternation `a|b|c`, stopping at the end of the input or at
an unmatched `)`. -/
def parseAlt (fuel : Nat) (s : List Char) : Except String (Regex × List Char) :=
  match fuel with
  | 0 => .error ("expression too deeply nested")
  | fuel + 1 => do
    let (r, rest) ← parseSeq fuel s
    match rest with
    | '|' :: rest2 => do
      let (r2, rest3) ← parseAlt fuel rest2
      .ok (.alt r r2, rest3)
    | _ => .ok (r, rest)

/-- Parses a (possibly empty) concatenation of repeated atoms. -/
def parseSeq (fuel : Nat) (s : List Char) : Except String (Regex × List Char) :=
  match fuel with
  | 0 => .error ("expression too deeply nested")
  | fuel + 1 =>
    match s with
    | [] => .ok (.emptyStr, [])
    | ')' :: _ => .ok (.emptyStr, s)
    | '|' :: _ => .ok (.emptyStr, s)
    | _ => do
      let (r, rest) ← parseRep fuel s
      let (r2, rest2) ← parseSeq fuel rest
      .ok (.cat r r2, rest2)

/-- Parses one atom with its optional postfix `*`, `+` or `?`. -/
def parseRep (fuel : Nat) (s : List Char) : Except String (Regex × List Char) :=
  match fuel with
  | 0 => .error ("expression too deeply nested")
  | fuel + 1 => do
    let (r, rest) ← parseAtom fuel s
    match rest with
    | op :: rest2 =>
      if op = '*' || op = '+' || op = '?' then .ok (applyRep r op, rest2)
      else .ok (r, rest)
    | [] => .ok (r, [])

/-- Parses one atom: a group, a class, `.`, an escaped or a literal
character.  A bare repetition operator, an unmatched parenthesis, an
unfinished class and a trailing backslash are compile errors, as in Go's
`regexp` package; the anchors are outside the modelled subset and are
rejected at compile time as well. -/
def parseAtom (fuel : Nat) (s : List Char) : Except String (Regex × List Char) :=
  match fuel with
  | 0 => .error ("expression too deeply nested")
  | fuel + 1 =>
    match s with
    | [] => .error ("missing operand")
    | '(' :: rest => do
      let (r, rest2) ← parseAlt fuel rest
      match rest2 with
      | ')' :: rest3 => .ok (r, rest3)
      | _ => .error ("missing closing )")
    | ')' :: _ => .error ("unexpected )")
    | '*' :: _ => .error ("missing argument to repetition operator")
    | '+' :: _ => .error ("missing argument to repetition operator")
    | '?' :: _ => .error ("missing argument to repetition operator")
    | '[' :: '^' :: rest => do
      let (items, rest2) ← parseClassItems rest []
      .ok (.cls true items, rest2)
    | '[' :: rest => do
      let (items, rest2) ← parseClassItems rest []
      .ok (.cls false items, rest2)
    | '^' :: _ => .error ("anchor outside the modelled subset")
    | '$' :: _ => .error ("anchor outside the modelled subset")
    | '\\' :: [] => .error ("trailing backslash at end of expression")
    | '\\' :: e :: rest => .ok (.chr e, rest)
    | '.' :: rest => .ok (.anyChar, rest)
    | c :: rest => .ok (.chr c, rest)

end

/-- Compiles a pattern, model of Go `regexp.Compile` on the subset above:
`.ok` with the syntax tree, or `.error` for a syntactically invalid
pattern.  The fuel is an upper bound on the parser's call depth, ample for
every input. -/
def regexpCompile (pattern : List Char) : Except String Regex :=
  match parseAlt (4 * pattern.length + 8) pattern with
  | .error e => .error e
  | .ok (r, []) => .ok r
  | .ok (_, _) => .error ("unexpected )")

/-- Model of Go `regexp.MatchString(pattern, s)`: compile, then search
unanchored; a compile failure is the error case (Go returns
`(false, err)`). -/
def MatchString (pattern s : List Char) : Except String Bool :=
  match regexpCompile pattern with
  | .error e => .error e
  | .ok r => .ok (r.search s)

/-- Embedding of `CheckRegEx` (src/utils/utils.go lines 23-41).  The source
calls `regexp.MatchString(regEx, checkString)`; a compile error is only
logged (`logger.Errorf` at line 29) while `stringMatch` keeps the `false`
that Go's `MatchString` returned beside the error; the function always
returns `stringMatch`. -/
def CheckRegEx (checkString : List Char) (regEx : List Char) : Bool :=
  match MatchString regEx checkString with
  | .ok stringMatch => stringMatch
  | .error _ => false

/-- Splits a list at the LAST occurrence of `sep`: `some (before, after)`,
or `none` when `sep` does not occur. -/
def breakLast (sep : Char) (s : List Char) : Option (List Char × List Char) :=
  match breakFirst sep s.reverse with
  | none => none
  | some (a, b) => some (b.reverse, a.reverse)

/-- Splits at every occurrence of `sep` (Go `strings.Split`), accumulator
form. -/
def splitOnAux (sep : Char) : List Char → List Char → List (List Char)
  | [], acc => [acc.reverse]
  | c :: cs, acc =>
    if c = sep then acc.reverse :: splitOnAux sep cs []
    else splitOnAux sep cs (c :: acc)

/-- Splits at every occurrence of `sep` (Go `strings.Split`). -/
def splitOn (sep : Char) (s : List Char) : List (List Char) :=
  splitOnAux sep s []

/-- Value of one hexadecimal digit, or `none`. -/
def hexVal (c : Char) : Option Nat :=
  if '0' ≤ c ∧ c ≤ '9' then some (c.toNat - '0'.toNat)
  else if 'a' ≤ c ∧ c ≤ 'f' then some (c.toNat - 'a'.toNat + 10)
  else if 'A' ≤ c ∧ c ≤ 'F' then some (c.toNat - 'A'.toNat + 10)
  else none

/-- Modelled from the spec: URL-decoding of a query-parameter value (the
spec's "URL-encoded IANA timezone name").  A `%hh` escape becomes the coded
character and `+` becomes a space; a malformed escape is kept verbatim. -/
def urlDecode : List Char → List Char
  | [] => []
  | '%' :: h1 :: h2 :: rest =>
    match hexVal h1, hexVal h2 with
    | some a, some b => Char.ofNat (16 * a + b) :: urlDecode rest
    | _, _ => '%' :: urlDecode (h1 :: h2 :: rest)
  | '+' :: rest => ' ' :: urlDecode rest
  | c :: rest => c :: urlDecode rest

/-- Value of a decimal numeral, accumulator form; `none` on a non-digit. -/
def decNatAux : List Char → Nat → Option Nat
  | [], acc => some acc
  | c :: cs, acc =>
    if '0' ≤ c ∧ c ≤ '9' then decNatAux cs (10 * acc + (c.toNat - '0'.toNat))
    else none

/-- Value of a nonempty all-digit numeral, else `none`. -/
def decNat : List Char → Option Nat
  | [] => none
  | c :: cs => decNatAux (c :: cs) 0

/-- Modelled from the spec: the error taxonomy of the DSN parser.
`malformedDSN` is a structurally unparsable connection string.
`invalidTimezone` is in the spec's taxonomy, but the IANA zone database is
external to this model, so no zone name is rejected here. -/
inductive DSNError where
  | malformedDSN
  | invalidTimezone
deriving DecidableEq

/-- Modelled from the spec: the Connection Descriptor of the DSN parser
(the `DSN` struct the test file checks).  `Location` carries the IANA zone
name; the process's local timezone is whatever name the caller passes to
`ParseDSN`.  Operation modes follow the test file's constants: 0 default,
2 SYSDBA (`OCI_SYSDBA`), 4 SYSOPER. -/
structure DSN where
  Username : List Char
  Password : List Char
  Connect : List Char
  operationMode : Nat
  prefetchRows : Nat
  Location : List Char
deriving DecidableEq

/-- Modelled from the spec: one recognized query parameter applied to the
descriptor - `loc` (URL-decoded zone name), case-insensitive `as`
(`sysdba` or `sysoper`), `prefetch_rows` (positive integer); anything else
leaves the descriptor unchanged. -/
def applyParam (d : DSN) (param : List Char) : DSN :=
  match breakFirst '=' param with
  | none => d
  | some (key, value) =>
    if key = "loc".data then { d with Location := urlDecode value }
    else if key = "as".data then
      if value.map Char.toLower = "sysdba".data then { d with operationMode := 2 }
      else if value.map Char.toLower = "sysoper".data then { d with operationMode := 4 }
      else d
    else if key = "prefetch_rows".data then
      match decNat value with
      | some n => if 0 < n then { d with prefetchRows := n } else d
      | none => d
    else d

/-- Strips the optional `oracle://` scheme: `(true, rest)` for the URI
form, `(false, s)` for the short form. -/
def schemeSplit (s : List Char) : Bool × List Char :=
  if s.take 9 = "oracle://".data then (true, s.drop 9) else (false, s)

/-- Modelled from the spec: the credential/connect split of the part
before any query.  Everything after the RIGHTMOST `@` is the
connect-target; the part before it splits at its leftmost `:` (URI form)
or `/` (short form) into username and password; `prefetch_rows` defaults
to 10, the operation mode to 0 and `Location` to the process's local
timezone.  A missing `@` or missing credential separator is a
`malformedDSN` error. -/
def parseMain (localZone : List Char) (isURI : Bool) (main : List Char) :
    Except DSNError DSN :=
  match breakLast '@' main with
  | none => .error .malformedDSN
  | some (cred, connect) =>
    match breakFirst (if isURI then ':' else '/') cred with
    | none => .error .malformedDSN
    | some (user, pwd) =>
      .ok { Username := user, Password := pwd, Connect := connect,
            operationMode := 0, prefetchRows := 10, Location := localZone }

/-- Modelled from the spec: `ParseDSN`.  The accepted grammar is
`["oracle://"] user ("/" password | ":" password) "@" connect-target ["?" query]`;
`localZone` stands for the process's local timezone, the default
`Location`.  The query - everything after the first `?` - is split at `&`
into parameters, each applied by `applyParam`.  (The spec's
`username@alias` recombination for a password segment with an embedded `@`
is the behavior of `RemovePassword` above; spec section 9 calls its
boundary condition underspecified, and no settled claim about `ParseDSN`
exercises it, so it is outside this model.) -/
def ParseDSN (localZone : List Char) (dsnString : List Char) :
    Except DSNError DSN :=
  let (isURI, rest) := schemeSplit dsnString
  match breakFirst '?' rest with
  | none => parseMain localZone isURI rest
  | some (main, query) =>
    match parseMain localZone isURI main with
    | .error e => .error e
    | .ok base => .ok ((splitOn '&' query).foldl applyParam base)

/-- Modelled from the spec: the fixed, enumerable set of vendor error
codes that indicate an unusable session - session killed (ORA-00028),
connection-monitor ended (ORA-00603), end-of-file on communication channel
(ORA-03113), not connected to the database (ORA-03114), connection lost
contact (ORA-03135). -/
def badConnectionCodes : List (List Char) :=
  ["ORA-00028".data, "ORA-00603".data, "ORA-03113".data, "ORA-03114".data,
    "ORA-03135".data]

/-- Modelled from the spec: `isBadConnection(errorCode) -> bool`, a pure
membership test in the fixed code set. -/
def isBadConnection (errorCode : List Char) : Bool :=
  badConnectionCodes.contains errorCode

/-- Modelled from the spec: the integer-typed target columns
(INTEGER / INT / SMALLINT). -/
inductive IntegerColumn where
  | INTEGER
  | INT
  | SMALLINT
deriving DecidableEq

/-- Modelled from the spec: `CoerceOut` on an integer-typed column.  A
numeric value (the neutral value, modelled as a rational) bound against
any of the integer-typed columns is stored rounded to the nearest integer
with ties away from zero: the half-adjust formula
`sign(v) * floor(|v| + 1/2)`. -/
def CoerceOut (v : ℚ) (_t : IntegerColumn) : ℤ :=
  if 0 ≤ v then ⌊v + 1 / 2⌋ else -⌊-v + 1 / 2⌋

theorem breakFirst_eq_none {sep : Char} {s : List Char} :
    breakFirst sep s = none ↔ sep ∉ s := by
  induction s with
  | nil => simp [breakFirst]
  | cons a as ih =>
    rw [breakFirst]
    by_cases h : a = sep
    · simp [h]
    · rw [if_neg h]
      simp only [Option.map_eq_none', ih, List.mem_cons, not_or]
      exact ⟨fun hn => ⟨fun hs => h hs.symm, hn⟩, fun hn => hn.2⟩

theorem breakFirst_append {sep : Char} {u : List Char} (v : List Char)
    (hu : sep ∉ u) : breakFirst sep (u ++ sep :: v) = some (u, v) := by
  induction u with
  | nil => simp [breakFirst]
  | cons a u ih =>
    have ha : a ≠ sep := fun h => hu (h ▸ List.mem_cons_self a u)
    have hu' : sep ∉ u := fun h => hu (List.mem_cons_of_mem a h)
    rw [List.cons_append, breakFirst, if_neg ha, ih hu']
    rfl

theorem breakFirst_sound {sep : Char} {s a b : List Char}
    (h : breakFirst sep s = some (a, b)) : s = a ++ sep :: b ∧ sep ∉ a := by
  induction s generalizing a b with
  | nil => simp [breakFirst] at h
  | cons c cs ih =>
    rw [breakFirst] at h
    by_cases hc : c = sep
    · rw [if_pos hc] at h
      simp only [Option.some.injEq, Prod.mk.injEq] at h
      obtain ⟨rfl, rfl⟩ := h
      subst hc
      exact ⟨rfl, List.not_mem_nil _⟩
    · rw [if_neg hc] at h
      obtain ⟨p, hp, hfp⟩ := Option.map_eq_some'.mp h
      simp only [Prod.mk.injEq] at hfp
      obtain ⟨h1, h2⟩ := hfp
      obtain ⟨hcs, hnot⟩ := ih hp
      subst h2
      constructor
      · rw [← h1, hcs, List.cons_append]
      · rw [← h1]
        intro hmem
        rcases List.mem_cons.mp hmem with h' | h'
        · exact hc h'.symm
        · exact hnot h'

/-- Helper: when the text after the first `/` contains no `@`,
`RemovePassword` returns exactly the username (the text before the `/`). -/
theorem removePassword_no_at (u p : List Char) (hu : '/' ∉ u) (hp : '@' ∉ p) :
    RemovePassword (u ++ '/' :: p) = some u := by
  simp only [RemovePassword, breakFirst_append p hu, breakFirst_eq_none.mpr hp]

/-- Helper: when the text after the first `/` contains an `@`, the function
splits it at its first `@` and returns `username ++ "@" ++ rest`. -/
theorem removePassword_with_at (u p c : List Char) (hu : '/' ∉ u) (hp : '@' ∉ p) :
    RemovePassword (u ++ '/' :: p ++ '@' :: c) = some (u ++ '@' :: c) := by
  simp only [List.append_assoc, List.cons_append, RemovePassword,
    breakFirst_append (p ++ '@' :: c) hu, breakFirst_append c hp]

/-- Claim C1, counterexample to the claim as stated.  On
`"u/p@x@c"` - username `u`, password segment `p@x` (it contains an `@`),
connect-target `c` after the rightmost `@` - the claim predicts the
recombined username `"u@c"` (alias = everything after the RIGHTMOST `@`);
the code actually splits the password segment at its LEFTMOST `@` and
returns `"u@x@c"`. -/
theorem removePassword_rightmost_counterexample :
    RemovePassword ("u/p@x@c".data) = some ("u@x@c".data) ∧
    RemovePassword ("u/p@x@c".data) ≠ some ("u@c".data) := by
  decide

/-- Claim C1, amended: for a credential string `username / p @ rest` in
which the leftmost `/` precedes everything and `p` is the part of the
password up to the FIRST `@` after that `/`, `RemovePassword` returns the
recombined username `username ++ "@" ++ rest` where `rest` is everything
after that first (leftmost, not rightmost) `@`. -/
theorem removePassword_recombined_username (u p c : List Char)
    (hu : '/' ∉ u) (hp : '@' ∉ p) :
    RemovePassword (u ++ '/' :: p ++ '@' :: c) = some (u ++ '@' :: c) :=
  removePassword_with_at u p c hu hp

/-- Claim C1 witness: `RemovePassword "user/pw@x@al" = some "user@x@al"`
(the alias kept is everything after the first `@`, here itself containing
a second `@`). -/
theorem removePassword_recombined_username_witness :
    RemovePassword ("user".data ++ '/' :: "pw".data ++ '@' :: "x@al".data)
      = some ("user".data ++ '@' :: "x@al".data) :=
  removePassword_recombined_username ("user".data) ("pw".data) ("x@al".data)
    (by decide) (by decide)

/-- Claim C2, counterexample to the claim as stated.  On the input
`"abc"`, which contains no `/` credential separator, the source reads
`upTokens[1]` of a one-element slice and panics with an index-out-of-range
runtime error (the `none` of the embedding); it neither returns a
`MalformedDSN` error value nor any other result, contradicting "it never
crashes or panics". -/
theorem removePassword_no_slash_panics :
    RemovePassword ("abc".data) = none := by
  decide

/-- Claim C2, amended: `RemovePassword` produces a result exactly for the
inputs that contain a `/`; on an input with no `/` it panics (
index-out-of-range, the `none` of the embedding) instead of returning a
`MalformedDSN` error. -/
theorem removePassword_totality (s : List Char) :
    (RemovePassword s).isSome ↔ '/' ∈ s := by
  constructor
  · intro hsome
    by_contra hno
    simp only [RemovePassword, breakFirst_eq_none.mpr hno, Option.isSome_none] at hsome
    exact Bool.false_ne_true hsome
  · intro hin
    cases h : breakFirst '/' s with
    | none => exact absurd hin (breakFirst_eq_none.mp h)
    | some p =>
      obtain ⟨pre, post⟩ := p
      rcases hb : breakFirst '@' post with _ | ⟨x, y⟩ <;>
        simp [RemovePassword, h, hb]

/-- Claim C9: the password segment (the text strictly between the leftmost
`/` and the next `@`, or to the end of the string when no `@` follows)
never influences `RemovePassword`: two inputs identical outside that
segment give the same result, and every character of the result comes from
the username part `u` or the tail `t` that follows the password segment -
never from the password segment itself. -/
theorem removePassword_password_noninterference (u p1 p2 t : List Char)
    (hu : '/' ∉ u) (h1 : '@' ∉ p1) (h2 : '@' ∉ p2)
    (ht : t = [] ∨ ∃ t2, t = '@' :: t2) :
    RemovePassword (u ++ '/' :: p1 ++ t) = RemovePassword (u ++ '/' :: p2 ++ t) ∧
    ∀ r, RemovePassword (u ++ '/' :: p1 ++ t) = some r →
      ∀ ch, ch ∈ r → ch ∈ u ∨ ch ∈ t := by
  rcases ht with rfl | ⟨t2, rfl⟩
  · simp only [List.append_nil]
    constructor
    · rw [removePassword_no_at u p1 hu h1, removePassword_no_at u p2 hu h2]
    · intro r hr ch hch
      rw [removePassword_no_at u p1 hu h1] at hr
      have hru := Option.some.inj hr
      subst hru
      exact Or.inl hch
  · constructor
    · rw [removePassword_with_at u p1 t2 hu h1, removePassword_with_at u p2 t2 hu h2]
    · intro r hr ch hch
      rw [removePassword_with_at u p1 t2 hu h1] at hr
      have hru := Option.some.inj hr
      subst hru
      rcases List.mem_append.mp hch with h' | h'
      · exact Or.inl h'
      · exact Or.inr h'

/-- Claim C9 witness: two inputs differing only in the password segment
(`"user/aa@db"` and `"user/secret@db"`) map to the same result. -/
theorem removePassword_password_noninterference_witness :
    RemovePassword ("user".data ++ '/' :: "aa".data ++ '@' :: "db".data)
      = RemovePassword ("user".data ++ '/' :: "secret".data ++ '@' :: "db".data) :=
  (removePassword_password_noninterference ("user".data) ("aa".data) ("secret".data)
    ('@' :: "db".data) (by decide) (by decide) (by decide)
    (Or.inr ⟨"db".data, rfl⟩)).1

theorem breakLast_append {sep : Char} (x : List Char) {c : List Char} (hc : sep ∉ c) :
    breakLast sep (x ++ sep :: c) = some (x, c) := by
  have hrev : (x ++ sep :: c).reverse = c.reverse ++ sep :: x.reverse := by
    simp [List.reverse_append]
  have hcr : sep ∉ c.reverse := by simpa using hc
  simp only [breakLast, hrev, breakFirst_append x.reverse hcr, List.reverse_reverse]

theorem splitOnAux_no_sep {sep : Char} {s : List Char} (acc : List Char) (hs : sep ∉ s) :
    splitOnAux sep s acc = [acc.reverse ++ s] := by
  induction s generalizing acc with
  | nil => simp [splitOnAux]
  | cons a as ih =>
    have ha : a ≠ sep := fun h => hs (h ▸ List.mem_cons_self a as)
    have hs' : sep ∉ as := fun h => hs (List.mem_cons_of_mem a h)
    rw [splitOnAux, if_neg ha, ih (a :: acc) hs']
    simp

theorem splitOn_no_sep {sep : Char} {s : List Char} (hs : sep ∉ s) :
    splitOn sep s = [s] := by
  rw [splitOn, splitOnAux_no_sep [] hs]
  simp

theorem schemeSplit_short {s : List Char} (h : s.take 9 ≠ "oracle://".data) :
    schemeSplit s = (false, s) := by
  simp [schemeSplit, h]

theorem schemeSplit_uri (s : List Char) :
    schemeSplit ("oracle://".data ++ s) = (true, s) := by
  have h9 : ("oracle://".data).length = 9 := rfl
  have ht : ("oracle://".data ++ s).take 9 = "oracle://".data := by
    rw [← h9]
    exact List.take_left _ _
  have hd : ("oracle://".data ++ s).drop 9 = s := by
    rw [← h9]
    exact List.drop_left _ _
  simp [schemeSplit, ht, hd]

/-- Appending `?query` to a query-free string does not create or destroy
the `oracle://` scheme marker. -/
theorem take_nine_append_query {s : List Char} (q : List Char) :
    ((s ++ '?' :: q).take 9 = "oracle://".data) ↔ (s.take 9 = "oracle://".data) := by
  rcases le_or_lt 9 s.length with h9 | h9
  · rw [List.take_append_of_le_length h9]
  · have hst : s.take 9 = s := List.take_of_length_le (le_of_lt h9)
    obtain ⟨k, hk⟩ : ∃ k, 9 - s.length = k + 1 := ⟨9 - s.length - 1, by omega⟩
    have hlhs : (s ++ '?' :: q).take 9 = s ++ '?' :: q.take k := by
      rw [List.take_append_eq_append_take, hst, hk, List.take_succ_cons]
    rw [hlhs, hst]
    constructor
    · intro h
      exfalso
      have hmem : '?' ∈ "oracle://".data :=
        h ▸ List.mem_append.mpr (Or.inr (List.mem_cons_self _ _))
      exact absurd hmem (by decide)
    · intro h
      exfalso
      have : s.length = ("oracle://".data).length := congrArg List.length h
      simp only [show ("oracle://".data).length = 9 from rfl] at this
      omega

theorem parseMain_short (localZone u p c : List Char) (hu : '/' ∉ u) (hc : '@' ∉ c) :
    parseMain localZone false (u ++ '/' :: p ++ '@' :: c)
      = .ok { Username := u, Password := p, Connect := c, operationMode := 0,
              prefetchRows := 10, Location := localZone } := by
  have h1 : breakLast '@' (u ++ '/' :: (p ++ '@' :: c)) = some (u ++ '/' :: p, c) := by
    have := breakLast_append (u ++ '/' :: p) hc
    simpa using this
  simp [parseMain, h1, breakFirst_append p hu]

theorem parseMain_uri (localZone u p c : List Char) (hu : ':' ∉ u) (hc : '@' ∉ c) :
    parseMain localZone true (u ++ ':' :: p ++ '@' :: c)
      = .ok { Username := u, Password := p, Connect := c, operationMode := 0,
              prefetchRows := 10, Location := localZone } := by
  have h1 : breakLast '@' (u ++ ':' :: (p ++ '@' :: c)) = some (u ++ ':' :: p, c) := by
    have := breakLast_append (u ++ ':' :: p) hc
    simpa using this
  simp [parseMain, h1, breakFirst_append p hu]

/-- Evaluation of `ParseDSN` once the scheme split is known. -/
theorem ParseDSN_eval (localZone : List Char) {s : List Char} {fl : Bool}
    {rest : List Char} (hss : schemeSplit s = (fl, rest)) :
    ParseDSN localZone s
      = match breakFirst '?' rest with
        | none => parseMain localZone fl rest
        | some (main, query) =>
          match parseMain localZone fl main with
          | .error e => .error e
          | .ok base => .ok ((splitOn '&' query).foldl applyParam base) := by
  unfold ParseDSN
  rw [hss]

/-- Evaluation of `ParseDSN` on a query-free string. -/
theorem ParseDSN_eval_noquery (localZone : List Char) {s : List Char} {fl : Bool}
    {rest : List Char} (hss : schemeSplit s = (fl, rest))
    (hq : breakFirst '?' rest = none) :
    ParseDSN localZone s = parseMain localZone fl rest := by
  rw [ParseDSN_eval localZone hss, hq]

/-- Evaluation of `ParseDSN` on a string with a query part. -/
theorem ParseDSN_eval_query (localZone : List Char) {s : List Char} {fl : Bool}
    {rest main query : List Char} (hss : schemeSplit s = (fl, rest))
    (hq : breakFirst '?' rest = some (main, query)) {d : DSN}
    (hmain : parseMain localZone fl main = .ok d) :
    ParseDSN localZone s = .ok ((splitOn '&' query).foldl applyParam d) := by
  rw [ParseDSN_eval localZone hss, hq]
  change (match parseMain localZone fl main with
    | Except.error e => Except.error e
    | Except.ok base => Except.ok ((splitOn '&' query).foldl applyParam base)) = _
  rw [hmain]

/-- Helper: the short form with no query parses to the all-defaults
descriptor with the three split segments. -/
theorem parseDSN_short_noquery (localZone u p c : List Char)
    (hu : '/' ∉ u) (hc : '@' ∉ c)
    (hqu : '?' ∉ u) (hqp : '?' ∉ p) (hqc : '?' ∉ c)
    (hscheme : (u ++ '/' :: p ++ '@' :: c).take 9 ≠ "oracle://".data) :
    ParseDSN localZone (u ++ '/' :: p ++ '@' :: c)
      = .ok { Username := u, Password := p, Connect := c, operationMode := 0,
              prefetchRows := 10, Location := localZone } := by
  have hq : '?' ∉ u ++ '/' :: p ++ '@' :: c := by
    simp only [List.mem_append, List.mem_cons]
    push_neg
    exact ⟨⟨hqu, by decide, hqp⟩, by decide, hqc⟩
  exact (ParseDSN_eval_noquery localZone (schemeSplit_short hscheme)
    (breakFirst_eq_none.mpr hq)).trans (parseMain_short localZone u p c hu hc)

/-- Claim C5: a short-form DSN with no query parameters parses into a
descriptor whose `Username`, `Password` and `Connect` are the three split
segments, whose prefetch count is the default 10, and whose `Location` is
the process's local timezone (the arbitrary `localZone`), with the default
operation mode. -/
theorem parseDSN_short_form_defaults (localZone u p c : List Char)
    (hu : '/' ∉ u) (hc : '@' ∉ c)
    (hqu : '?' ∉ u) (hqp : '?' ∉ p) (hqc : '?' ∉ c)
    (hscheme : (u ++ '/' :: p ++ '@' :: c).take 9 ≠ "oracle://".data) :
    ParseDSN localZone (u ++ '/' :: p ++ '@' :: c)
      = .ok { Username := u, Password := p, Connect := c, operationMode := 0,
              prefetchRows := 10, Location := localZone } :=
  parseDSN_short_noquery localZone u p c hu hc hqu hqp hqc hscheme

/-- Claim C5 witness: `ParseDSN` at `user/pwd@host:1521/SRV` with an
arbitrary concrete local zone. -/
theorem parseDSN_short_form_defaults_witness :
    ParseDSN ("LocalZone".data)
        ("user".data ++ '/' :: "pwd".data ++ '@' :: "host:1521/SRV".data)
      = .ok { Username := "user".data, Password := "pwd".data,
              Connect := "host:1521/SRV".data, operationMode := 0,
              prefetchRows := 10, Location := "LocalZone".data } :=
  parseDSN_short_form_defaults ("LocalZone".data) ("user".data) ("pwd".data)
    ("host:1521/SRV".data) (by decide) (by decide) (by decide) (by decide)
    (by decide) (by decide)

/-- Claim C6: a `loc` query parameter sets the descriptor's `Location` to
the URL-decoded zone name, regardless of the process's local timezone (the
arbitrary `localZone` does not appear in the result), in both the short
form and the URI form of the DSN. -/
theorem parseDSN_loc_sets_location (localZone u p c z : List Char)
    (hu : '/' ∉ u) (hu2 : ':' ∉ u) (hc : '@' ∉ c)
    (hqu : '?' ∉ u) (hqp : '?' ∉ p) (hqc : '?' ∉ c) (hz : '&' ∉ z)
    (hscheme : ((u ++ '/' :: p ++ '@' :: c) ++ '?' :: ("loc".data ++ '=' :: z)).take 9
        ≠ "oracle://".data) :
    ParseDSN localZone ((u ++ '/' :: p ++ '@' :: c) ++ '?' :: ("loc".data ++ '=' :: z))
      = .ok { Username := u, Password := p, Connect := c, operationMode := 0,
              prefetchRows := 10, Location := urlDecode z } ∧
    ParseDSN localZone ("oracle://".data ++ ((u ++ ':' :: p ++ '@' :: c) ++ '?' ::
        ("loc".data ++ '=' :: z)))
      = .ok { Username := u, Password := p, Connect := c, operationMode := 0,
              prefetchRows := 10, Location := urlDecode z } := by
  have hqshort : '?' ∉ u ++ '/' :: p ++ '@' :: c := by
    simp only [List.mem_append, List.mem_cons]
    push_neg
    exact ⟨⟨hqu, by decide, hqp⟩, by decide, hqc⟩
  have hquri : '?' ∉ u ++ ':' :: p ++ '@' :: c := by
    simp only [List.mem_append, List.mem_cons]
    push_neg
    exact ⟨⟨hqu, by decide, hqp⟩, by decide, hqc⟩
  have hamp : '&' ∉ "loc".data ++ '=' :: z := by
    simp only [List.mem_append, List.mem_cons]
    push_neg
    exact ⟨by decide, by decide, hz⟩
  have hfold : ∀ base : DSN,
      (splitOn '&' ("loc".data ++ '=' :: z)).foldl applyParam base
        = { base with Location := urlDecode z } := by
    intro base
    rw [splitOn_no_sep hamp]
    rfl
  constructor
  · exact (ParseDSN_eval_query localZone (schemeSplit_short hscheme)
      (breakFirst_append ("loc".data ++ '=' :: z) hqshort)
      (parseMain_short localZone u p c hu hc)).trans
      (congrArg Except.ok (hfold _))
  · exact (ParseDSN_eval_query localZone
      (schemeSplit_uri ((u ++ ':' :: p ++ '@' :: c) ++ '?' :: ("loc".data ++ '=' :: z)))
      (breakFirst_append ("loc".data ++ '=' :: z) hquri)
      (parseMain_uri localZone u p c hu2 hc)).trans
      (congrArg Except.ok (hfold _))

/-- Claim C6 witness: `loc=America%2FLos_Angeles` yields the
`America/Los_Angeles` location in the short form, for an arbitrary
concrete process zone. -/
theorem parseDSN_loc_sets_location_witness :
    ParseDSN ("SomeLocal".data) (("xxmc".data ++ '/' :: "xxmc".data ++ '@' ::
        "107.20.30.169:1521/ORCL".data) ++ '?' :: ("loc".data ++ '=' ::
        "America%2FLos_Angeles".data))
      = .ok { Username := "xxmc".data, Password := "xxmc".data,
              Connect := "107.20.30.169:1521/ORCL".data, operationMode := 0,
              prefetchRows := 10, Location := "America/Los_Angeles".data } :=
  ((parseDSN_loc_sets_location ("SomeLocal".data) ("xxmc".data) ("xxmc".data)
      ("107.20.30.169:1521/ORCL".data) ("America%2FLos_Angeles".data)
      (by decide) (by decide) (by decide) (by decide) (by decide) (by decide)
      (by decide) (by decide)).1).trans
    (congrArg Except.ok (by decide))

/-- Claim C7: appending `?as=sysdba` to any query-free DSN string that
parses successfully sets the operation mode to SYSDBA (the test file's
constant 2) and leaves every other field of the descriptor exactly as it
is without the parameter. -/
theorem parseDSN_as_sysdba_frame (localZone s : List Char) (d : DSN)
    (hq : '?' ∉ s) (h : ParseDSN localZone s = .ok d) :
    ParseDSN localZone (s ++ '?' :: ("as".data ++ '=' :: "sysdba".data))
      = .ok { d with operationMode := 2 } := by
  have hfold : (splitOn '&' ("as".data ++ '=' :: "sysdba".data)).foldl applyParam d
      = { d with operationMode := 2 } := by
    rw [splitOn_no_sep (by decide)]
    rfl
  by_cases hcase : s.take 9 = "oracle://".data
  · have h9 : 9 ≤ s.length := by
      have hlen := congrArg List.length hcase
      rw [List.length_take] at hlen
      simp only [show ("oracle://".data).length = 9 from rfl] at hlen
      omega
    have hdropq : '?' ∉ s.drop 9 := fun hm => hq (List.drop_subset 9 s hm)
    have hscheme2 : (s ++ '?' :: ("as".data ++ '=' :: "sysdba".data)).take 9
        = "oracle://".data :=
      (take_nine_append_query ("as".data ++ '=' :: "sysdba".data)).mpr hcase
    have hdrop : (s ++ '?' :: ("as".data ++ '=' :: "sysdba".data)).drop 9
        = s.drop 9 ++ '?' :: ("as".data ++ '=' :: "sysdba".data) :=
      List.drop_append_of_le_length h9
    have hss1 : schemeSplit s = (true, s.drop 9) := by
      unfold schemeSplit
      rw [hcase, if_pos rfl]
    have hss2 : schemeSplit (s ++ '?' :: ("as".data ++ '=' :: "sysdba".data))
        = (true, s.drop 9 ++ '?' :: ("as".data ++ '=' :: "sysdba".data)) := by
      unfold schemeSplit
      rw [hscheme2, if_pos rfl, hdrop]
    have hmain : parseMain localZone true (s.drop 9) = .ok d :=
      (ParseDSN_eval_noquery localZone hss1 (breakFirst_eq_none.mpr hdropq)).symm.trans h
    exact (ParseDSN_eval_query localZone hss2
      (breakFirst_append ("as".data ++ '=' :: "sysdba".data) hdropq) hmain).trans
      (congrArg Except.ok hfold)
  · have hscheme2 : (s ++ '?' :: ("as".data ++ '=' :: "sysdba".data)).take 9
        ≠ "oracle://".data :=
      fun hh => hcase ((take_nine_append_query ("as".data ++ '=' :: "sysdba".data)).mp hh)
    have hmain : parseMain localZone false s = .ok d :=
      (ParseDSN_eval_noquery localZone (schemeSplit_short hcase)
        (breakFirst_eq_none.mpr hq)).symm.trans h
    exact (ParseDSN_eval_query localZone (schemeSplit_short hscheme2)
      (breakFirst_append ("as".data ++ '=' :: "sysdba".data) hq) hmain).trans
      (congrArg Except.ok hfold)

/-- Claim C7 witness: `sys/pwd@db?as=sysdba` parses as `sys/pwd@db` does,
except that the operation mode is 2 (SYSDBA). -/
theorem parseDSN_as_sysdba_frame_witness :
    ParseDSN ("LocalZone".data)
        ("sys/pwd@db".data ++ '?' :: ("as".data ++ '=' :: "sysdba".data))
      = .ok { Username := "sys".data, Password := "pwd".data, Connect := "db".data,
              operationMode := 2, prefetchRows := 10, Location := "LocalZone".data } :=
  parseDSN_as_sysdba_frame ("LocalZone".data) ("sys/pwd@db".data)
    { Username := "sys".data, Password := "pwd".data, Connect := "db".data,
      operationMode := 0, prefetchRows := 10, Location := "LocalZone".data }
    (by decide) rfl

/-- Claim C8: `isBadConnection` is a pure boolean classifier of the
error-code string: true on the not-connected code ORA-03114, false on the
SQL-level failure codes ORA-00001 (unique constraint violated) and
ORA-01403 (no data found). -/
theorem isBadConnection_classification :
    isBadConnection ("ORA-03114".data) = true ∧
    isBadConnection ("ORA-00001".data) = false ∧
    isBadConnection ("ORA-01403".data) = false := by
  decide

theorem coerceOut_of_nonneg {v : ℚ} (h : 0 ≤ v) (t : IntegerColumn) :
    CoerceOut v t = ⌊v + 1 / 2⌋ := by
  simp [CoerceOut, h]

theorem coerceOut_of_neg {v : ℚ} (h : ¬ 0 ≤ v) (t : IntegerColumn) :
    CoerceOut v t = -⌊-v + 1 / 2⌋ := by
  simp [CoerceOut, h]

/-- Helper: the stored integer is within a half of the bound value. -/
theorem coerceOut_dist_le_half (v : ℚ) (t : IntegerColumn) :
    |v - (CoerceOut v t : ℚ)| ≤ 1 / 2 := by
  by_cases h : 0 ≤ v
  · rw [coerceOut_of_nonneg h t]
    have h1 : ((⌊v + 1 / 2⌋ : ℤ) : ℚ) ≤ v + 1 / 2 := Int.floor_le _
    have h2 : v + 1 / 2 < (⌊v + 1 / 2⌋ : ℚ) + 1 := Int.lt_floor_add_one _
    rw [abs_le]
    constructor <;> linarith
  · rw [coerceOut_of_neg h t]
    have h1 : ((⌊-v + 1 / 2⌋ : ℤ) : ℚ) ≤ -v + 1 / 2 := Int.floor_le _
    have h2 : -v + 1 / 2 < (⌊-v + 1 / 2⌋ : ℚ) + 1 := Int.lt_floor_add_one _
    rw [abs_le]
    push_cast
    constructor <;> linarith

/-- Helper: no integer is strictly closer to the bound value than the
stored integer. -/
theorem coerceOut_nearest (v : ℚ) (t : IntegerColumn) (n : ℤ) :
    |v - (CoerceOut v t : ℚ)| ≤ |v - (n : ℚ)| := by
  by_cases hn : n = CoerceOut v t
  · rw [hn]
  · have hne : CoerceOut v t - n ≠ 0 := sub_ne_zero.mpr fun hh => hn hh.symm
    have hd : (1 : ℤ) ≤ |CoerceOut v t - n| := Int.one_le_abs hne
    have hdq : (1 : ℚ) ≤ |(CoerceOut v t : ℚ) - (n : ℚ)| := by exact_mod_cast hd
    have htri : |(CoerceOut v t : ℚ) - (n : ℚ)|
        ≤ |(CoerceOut v t : ℚ) - v| + |v - (n : ℚ)| := abs_sub_le _ v _
    have hcomm : |(CoerceOut v t : ℚ) - v| = |v - (CoerceOut v t : ℚ)| :=
      abs_sub_comm _ _
    have hhalf := coerceOut_dist_le_half v t
    linarith

/-- Helper: at an exact half-way tie the stored integer is the one of
strictly larger magnitude - ties round away from zero. -/
theorem coerceOut_tie (v : ℚ) (t : IntegerColumn)
    (htie : |v - (CoerceOut v t : ℚ)| = 1 / 2) :
    |v| < |(CoerceOut v t : ℚ)| := by
  by_cases h : 0 ≤ v
  · rw [coerceOut_of_nonneg h t] at htie ⊢
    have h1 : ((⌊v + 1 / 2⌋ : ℤ) : ℚ) ≤ v + 1 / 2 := Int.floor_le _
    have h2 : v + 1 / 2 < (⌊v + 1 / 2⌋ : ℚ) + 1 := Int.lt_floor_add_one _
    rcases (abs_eq (by norm_num : (0 : ℚ) ≤ 1 / 2)).mp htie with he | he
    · exfalso
      linarith
    · have hr : ((⌊v + 1 / 2⌋ : ℤ) : ℚ) = v + 1 / 2 := by linarith
      rw [abs_of_nonneg h, hr, abs_of_nonneg (by linarith : (0 : ℚ) ≤ v + 1 / 2)]
      linarith
  · rw [coerceOut_of_neg h t] at htie ⊢
    push_neg at h
    have h1 : ((⌊-v + 1 / 2⌋ : ℤ) : ℚ) ≤ -v + 1 / 2 := Int.floor_le _
    have h2 : -v + 1 / 2 < (⌊-v + 1 / 2⌋ : ℚ) + 1 := Int.lt_floor_add_one _
    have hcast : ((-⌊-v + 1 / 2⌋ : ℤ) : ℚ) = -((⌊-v + 1 / 2⌋ : ℤ) : ℚ) := by
      push_cast
      ring
    rw [hcast] at htie ⊢
    rcases (abs_eq (by norm_num : (0 : ℚ) ≤ 1 / 2)).mp htie with he | he
    · have hr : ((⌊-v + 1 / 2⌋ : ℤ) : ℚ) = -v + 1 / 2 := by linarith
      rw [abs_of_neg h, hr, abs_neg,
        abs_of_pos (by linarith : (0 : ℚ) < -v + 1 / 2)]
      linarith
    · exfalso
      linarith

/-- Claim C3: a numeric value bound against any integer-typed column
(INTEGER, INT, SMALLINT) is stored by `CoerceOut` as the nearest integer -
no other integer is strictly closer - with ties rounded away from zero (at
an exact half-way value the stored integer has strictly larger magnitude
than the value); in particular 1.98 is stored as 2 and -1.98 as -2:
rounding, not truncation toward zero. -/
theorem coerceOut_integer_rounds (t : IntegerColumn) :
    (∀ v : ℚ, ∀ n : ℤ, |v - (CoerceOut v t : ℚ)| ≤ |v - (n : ℚ)|) ∧
    (∀ v : ℚ, |v - (CoerceOut v t : ℚ)| = 1 / 2 → |v| < |(CoerceOut v t : ℚ)|) ∧
    CoerceOut (198 / 100) t = 2 ∧ CoerceOut (-(198 / 100)) t = -2 :=
  ⟨fun v n => coerceOut_nearest v t n, fun v htie => coerceOut_tie v t htie,
    by norm_num [CoerceOut], by norm_num [CoerceOut]⟩

/-- Claim C10: `CheckRegEx` is total and returns a plain boolean.  When the
pattern fails to compile it swallows the error and returns `false` (the
source only logs the error and falls through); when the pattern compiles it
returns exactly whether the pattern matches (unanchored) the check
string. -/
theorem checkRegEx_total_spec (checkString regEx : List Char) :
    (∀ e, regexpCompile regEx = Except.error e → CheckRegEx checkString regEx = false) ∧
    (∀ r, regexpCompile regEx = Except.ok r →
      CheckRegEx checkString regEx = r.search checkString) := by
  constructor
  · intro e he
    simp [CheckRegEx, MatchString, he]
  · intro r hr
    simp [CheckRegEx, MatchString, hr]

/-- Sanity: the repository's own pattern `.+/[^@]+` compiles and matches a
`user/password` credential string. -/
theorem checkRegEx_sample_match :
    CheckRegEx ("scott/tiger".data) (".+/[^@]+".data) = true := by
  decide

/-- Sanity: the same pattern does not match a string whose post-`/` part is
all `@`-delimited. -/
theorem checkRegEx_sample_no_match :
    CheckRegEx ("ab/@tns".data) (".+/[^@]+".data) = false := by
  decide

/-- Sanity: an unbalanced `(` is a compile error of the modelled engine,
and `CheckRegEx` swallows it into `false`. -/
theorem checkRegEx_sample_invalid :
    regexpCompile ("(".data) = Except.error ("missing closing )") ∧
    CheckRegEx ("anything".data) ("(".data) = false :=
  ⟨rfl, by decide⟩

end GoDriver
